import Mathlib

/-!
Shallow embedding of the `ssdp-forwarder` repository (`main.go`) and proofs
about its parsing, provisioning, forwarding and shutdown behaviour.

Strings are modelled as `List Char`, machine integers as `Int`/`Nat`,
the OS as an explicit environment of oracles, and the concurrent
goroutine structure as a labelled transition system.
-/

namespace SSDPF

/-- Strings are modelled as lists of characters. -/
abbrev Str := List Char

/-- ASCII whitespace as recognised by `strings.TrimSpace`. -/
def goIsSpace (c : Char) : Bool :=
  c = ' ' || c = '\t' || c = '\n' || c = '\x0b' || c = '\x0c' || c = '\r'

/-- `strings.Split(input, ",")`: split a string at every comma. -/
def splitComma : Str → List Str
  | [] => [[]]
  | c :: cs =>
    if c = ',' then [] :: splitComma cs
    else
      match splitComma cs with
      | [] => [[c]]
      | p :: ps => (c :: p) :: ps

/-- `strings.TrimSpace`: remove leading and trailing whitespace. -/
def trimSpace (s : Str) : Str :=
  ((s.dropWhile goIsSpace).reverse.dropWhile goIsSpace).reverse

/-- `parseCommaSeparated` from `main.go`: split on commas, trim each part,
drop the parts that are empty after trimming. -/
def parseCommaSeparated (input : Str) : List Str :=
  ((splitComma input).map trimSpace).filter (fun t => !t.isEmpty)

/-- Whitespace skipped by a `fmt` scanning verb; for `Sscanf` a newline in
the input is not skipped (it must match a newline in the format). -/
def scanSpace (c : Char) : Bool :=
  c = ' ' || c = '\t' || c = '\x0b' || c = '\x0c' || c = '\r'

/-- `fmt.Sscanf(s, "%d", &port)`: skip leading spaces, an optional sign,
then a non-empty run of decimal digits; characters after the digits are
ignored; the value must fit in a 64-bit `int`.  `none` models a scan error. -/
def sscanfD (s : Str) : Option Int :=
  let s1 := s.dropWhile scanSpace
  if s1.headD 'a' = '\n' then none
  else
    let signed : Bool × Str :=
      match s1 with
      | '-' :: r => (true, r)
      | '+' :: r => (false, r)
      | _ => (false, s1)
    let ds := signed.2.takeWhile Char.isDigit
    if ds.isEmpty then none
    else
      let v : Nat := ds.foldl (fun a c => 10 * a + (c.toNat - '0'.toNat)) 0
      let i : Int := if signed.1 then -(v : Int) else (v : Int)
      if i < -(2 ^ 63) ∨ 2 ^ 63 - 1 < i then none else some i

/-- Errors produced by `parsePorts`: a failed `Sscanf` or a port outside
the range 1..65535. -/
inductive PortError where
  | invalidPort (s : Str)
  | outOfRange (p : Int)
deriving DecidableEq

/-- `parsePorts` from `main.go`: convert each port string with
`fmt.Sscanf "%d"`, rejecting values outside 1..65535; the first failure
aborts the whole conversion. -/
def parsePorts : List Str → Except PortError (List Int)
  | [] => .ok []
  | p :: rest =>
    match sscanfD p with
    | none => .error (.invalidPort p)
    | some port =>
      if port ≤ 0 ∨ 65535 < port then .error (.outOfRange port)
      else
        match parsePorts rest with
        | .error e => .error e
        | .ok ps => .ok (port :: ps)

/-- Opaque token standing for an OS-level error value. -/
abbrev OSErr := Nat

/-- The operating-system environment seen by `main.go`: whether a group
literal parses (`net.ParseIP`), whether an interface exists
(`net.InterfaceByName`), its first IPv4 address (`firstIPv4Addr`), and
whether opening the listen (`net.ListenMulticastUDP`) or send
(`net.DialUDP`) socket for given parameters fails. -/
structure Env where
  parseIPOk : Str → Bool
  ifaceExists : Str → Bool
  ipv4Of : Str → Option Str
  listenErr : Str → Str → Int → Option OSErr
  dialErr : Str → Str → Int → Option OSErr

/-- `BufferLen` from `main.go`: maximum UDP read buffer size. -/
def BufferLen : Nat := 65535

/-- A multicast listen socket as configured by `initializeConnections`:
joined to `group` on `iface`, bound to `port`, read buffer enlarged. -/
structure ListenSock where
  group : Str
  iface : Str
  port : Int
  readBuffer : Nat
deriving DecidableEq

/-- A send socket as configured by `initializeConnections`: local address
is the interface's first IPv4 (ephemeral port), pre-connected to
`(group, destPort)`. -/
structure SendSock where
  group : Str
  localIP : Str
  destPort : Int
deriving DecidableEq

/-- One registry entry: the listen/send socket pair of a
(group, interface, port-index) triple. -/
structure SockPair where
  listenSock : ListenSock
  sendSock : SendSock
deriving DecidableEq

/-- The socket pair `initializeConnections` builds for group `g`,
interface `i` with local address `lip`, and (listen port, dest port)
pair `pd`. -/
def mkSockPair (g i lip : Str) (pd : Int × Int) : SockPair :=
  ⟨⟨g, i, pd.1, BufferLen⟩, ⟨g, lip, pd.2⟩⟩

/-- The fatal provisioning errors of `initializeConnections`, each with
the context printed by the corresponding `log.Fatalf`. -/
inductive FatalError where
  | parseGroup (group : Str)
  | ifaceNotFound (ifName : Str)
  | noIPv4 (ifName : Str)
  | listenFail (group ifName : Str) (port : Int) (os : OSErr)
  | dialFail (group ifName localIP : Str) (destPort : Int) (os : OSErr)
deriving DecidableEq

/-- Record of a socket having been opened (in program order). -/
inductive OpenSock where
  | listen (group iface : Str) (port : Int)
  | send (group localIP : Str) (destPort : Int)
deriving DecidableEq

/-- The registry: `conns`/`senders` pairs indexed `[group][iface][port]`. -/
abbrev Registry := List (List (List SockPair))

/-- Inner loop of `initializeConnections` over the (port, destPort)
pairs of one (group, interface): open listen socket then send socket,
`log.Fatalf` (modelled as `.error`) on the first failure.  Also returns
the sockets opened before the failure, in order. -/
def provisionPorts (env : Env) (group ifName localIP : Str) :
    List (Int × Int) → List OpenSock × Except FatalError (List SockPair)
  | [] => ([], .ok [])
  | pd :: rest =>
    match env.listenErr group ifName pd.1 with
    | some os => ([], .error (.listenFail group ifName pd.1 os))
    | none =>
      match env.dialErr group ifName pd.2 with
      | some os =>
        ([.listen group ifName pd.1], .error (.dialFail group ifName localIP pd.2 os))
      | none =>
        let r := provisionPorts env group ifName localIP rest
        (.listen group ifName pd.1 :: .send group localIP pd.2 :: r.1,
         match r.2 with
         | .error e => .error e
         | .ok ps => .ok (mkSockPair group ifName localIP pd :: ps))

/-- Middle loop of `initializeConnections` over interfaces: resolve the
interface and its first IPv4 address, then provision all ports. -/
def provisionIfaces (env : Env) (group : Str) :
    List Str → List (Int × Int) → List OpenSock × Except FatalError (List (List SockPair))
  | [], _ => ([], .ok [])
  | ifName :: rest, pds =>
    if env.ifaceExists ifName then
      match env.ipv4Of ifName with
      | none => ([], .error (.noIPv4 ifName))
      | some localIP =>
        let r1 := provisionPorts env group ifName localIP pds
        match r1.2 with
        | .error e => (r1.1, .error e)
        | .ok pairs =>
          let r2 := provisionIfaces env group rest pds
          (r1.1 ++ r2.1,
           match r2.2 with
           | .error e => .error e
           | .ok rows => .ok (pairs :: rows))
    else ([], .error (.ifaceNotFound ifName))

/-- Outer loop of `initializeConnections` over groups: parse the group
literal, then provision all interfaces. -/
def initConnGroups (env : Env) :
    List Str → List Str → List (Int × Int) → List OpenSock × Except FatalError Registry
  | [], _, _ => ([], .ok [])
  | group :: rest, ifaces, pds =>
    if env.parseIPOk group then
      let r1 := provisionIfaces env group ifaces pds
      match r1.2 with
      | .error e => (r1.1, .error e)
      | .ok rows =>
        let r2 := initConnGroups env rest ifaces pds
        (r1.1 ++ r2.1,
         match r2.2 with
         | .error e => .error e
         | .ok gs => .ok (rows :: gs))
    else ([], .error (.parseGroup group))

/-- `initializeConnections` from `main.go`, with `ports`/`destPorts`
paired positionally (`destPorts[p]` is looked up for port index `p`). -/
def initializeConnections (env : Env) (groups ifaces : List Str)
    (ports destPorts : List Int) : List OpenSock × Except FatalError Registry :=
  initConnGroups env groups ifaces (ports.zip destPorts)

/-- Specification-side description of a single socket-creation step's
failure for a `(group, interface, (port, destPort))` step: the listen
socket is opened first, then the send socket. -/
def stepFail (env : Env) (g i : Str) (pd : Int × Int) : Option FatalError :=
  match env.listenErr g i pd.1 with
  | some os => some (.listenFail g i pd.1 os)
  | none =>
    match env.dialErr g i pd.2 with
    | some os => some (.dialFail g i ((env.ipv4Of i).getD []) pd.2 os)
    | none => none

/-- Specification-side "first provisioning failure" in iteration order
(groups outermost, then interfaces, then port indices), used to compare
`initializeConnections` against the fail-fast description. -/
def firstFailureSpec (env : Env) (groups ifaces : List Str)
    (pds : List (Int × Int)) : Option FatalError :=
  groups.findSome? fun g =>
    ifaces.findSome? fun i =>
      pds.findSome? (stepFail env g i)

/-- All topology-resolution steps succeed: every group literal parses and
every interface exists and has an IPv4 address. -/
def ResolutionOk (env : Env) (groups ifaces : List Str) : Prop :=
  (∀ g ∈ groups, env.parseIPOk g = true) ∧
  (∀ i ∈ ifaces, env.ifaceExists i = true ∧ (env.ipv4Of i).isSome = true)

/-- A reported provisioning error genuinely names a failing
socket-creation step of the configured topology, together with the
underlying OS error. -/
def GenuineSockFailure (env : Env) (groups ifaces : List Str)
    (pds : List (Int × Int)) : FatalError → Prop
  | .listenFail g i p os =>
      g ∈ groups ∧ i ∈ ifaces ∧ (∃ dp, (p, dp) ∈ pds) ∧ env.listenErr g i p = some os
  | .dialFail g i lip dp os =>
      g ∈ groups ∧ i ∈ ifaces ∧ (env.ipv4Of i).getD [] = lip ∧
      (∃ p, (p, dp) ∈ pds) ∧ env.dialErr g i dp = some os
  | _ => False

/-- The fatal configuration errors of `main` (each a `log.Fatalf`, which
exits the process with status 1). -/
inductive MainFatal where
  | noInterfaces
  | noPorts
  | noGroups
  | badPorts (e : PortError)
  | badDestPorts (e : PortError)
  | destPortMismatch (nd np : Nat)
  | provision (e : FatalError)
deriving DecidableEq

/-- The destination-port handling of `main`: if the `-d` flag is
non-empty, parse it and require the same length as the listen-port list,
otherwise use the listen ports themselves. -/
def computeDestPorts (destPortsFlag : Str) (ports : List Int) :
    Except MainFatal (List Int) :=
  if destPortsFlag.isEmpty then .ok ports
  else
    match parsePorts (parseCommaSeparated destPortsFlag) with
    | .error e => .error (.badDestPorts e)
    | .ok dps =>
      if dps.length = ports.length then .ok dps
      else .error (.destPortMismatch dps.length ports.length)

/-- A worker identity: (group index, interface index, port index). -/
abbrev Triple := Nat × Nat × Nat

/-- The triples for which `startForwarding` launches one goroutine each:
the full Cartesian product of group, interface and port indices. -/
def workerTriples (nG nI nP : Nat) : List Triple :=
  (List.range nG).flatMap fun g =>
    (List.range nI).flatMap fun i =>
      (List.range nP).map fun p => (g, i, p)

/-- How `main` ends up after its setup phase: a fatal `log.Fatalf`
(process exits with status 1) or steady-state running with a registry
and one worker per triple. -/
inductive Outcome where
  | fatal (e : MainFatal)
  | running (reg : Registry) (workers : List Triple)

/-- The exit status `main`'s setup phase produces, when it exits there:
`log.Fatalf` exits with status 1; otherwise the process keeps running. -/
def exitCodeOf : Outcome → Option Nat
  | .fatal _ => some 1
  | .running _ _ => none

/-- The workers started by `main`'s setup phase. -/
def workersOf : Outcome → List Triple
  | .fatal _ => []
  | .running _ ws => ws

/-- Result of `main`'s setup phase: the sockets opened (in order) and the
outcome. -/
structure MainRun where
  opened : List OpenSock
  outcome : Outcome

/-- The tail of `main` after flag parsing: `initializeConnections`
followed by `startForwarding` (workers exist only if provisioning fully
succeeded). -/
def runMainParsed (env : Env) (groups ifaces : List Str)
    (ports destPorts : List Int) : MainRun :=
  let r := initializeConnections env groups ifaces ports destPorts
  match r.2 with
  | .error e => ⟨r.1, .fatal (.provision e)⟩
  | .ok reg =>
    ⟨r.1, .running reg (workerTriples groups.length ifaces.length ports.length)⟩

/-- `main` from `main.go`: mandatory-flag checks, comma splitting, port
parsing, group trimming, destination-port handling, then provisioning
and worker startup. -/
def runMain (env : Env) (ifacesFlag portsFlag groupsFlag destPortsFlag : Str) :
    MainRun :=
  if ifacesFlag.isEmpty then ⟨[], .fatal .noInterfaces⟩
  else if portsFlag.isEmpty then ⟨[], .fatal .noPorts⟩
  else if groupsFlag.isEmpty then ⟨[], .fatal .noGroups⟩
  else
    let ifaceNames := parseCommaSeparated ifacesFlag
    let portStrs := parseCommaSeparated portsFlag
    let groupStrs := (parseCommaSeparated groupsFlag).map trimSpace
    match parsePorts portStrs with
    | .error e => ⟨[], .fatal (.badPorts e)⟩
    | .ok ports =>
      match computeDestPorts destPortsFlag ports with
      | .error e => ⟨[], .fatal e⟩
      | .ok destPorts => runMainParsed env groupStrs ifaceNames ports destPorts

/-- A datagram payload: a list of bytes. -/
abbrev Packet := List Nat

/-- `packet := make([]byte, n); copy(packet, buf[:n])`: the owned copy of
the first `n` bytes of the scratch buffer. -/
def goCopy (buf : Packet) (n : Nat) : Packet := buf.take n

/-- Log events emitted by the fan-out loop of `startForwarding`. -/
inductive FwdLog where
  | fwdError (dest : Nat)
  | fwdVerbose (dest : Nat) (n : Nat)
deriving DecidableEq

/-- The fan-out loop body of `startForwarding` over a list of interface
indices: skip the receiving interface, otherwise write the packet to
that interface's send socket; a failed write (per the `wfail` oracle) is
only logged.  Returns the write attempts (destination, payload) in order
together with the log events. -/
def forwardLoop (iIdx : Nat) (packet : Packet) (wfail : Nat → Bool) :
    List Nat → List (Nat × Packet) × List FwdLog
  | [] => ([], [])
  | j :: rest =>
    if j = iIdx then forwardLoop iIdx packet wfail rest
    else
      let r := forwardLoop iIdx packet wfail rest
      ((j, packet) :: r.1,
       (if wfail j then FwdLog.fwdError j else FwdLog.fwdVerbose j packet.length) :: r.2)

/-- The full fan-out of one received datagram: iterate over all interface
indices `0 .. numIfaces-1`. -/
def forwardAll (numIfaces iIdx : Nat) (packet : Packet) (wfail : Nat → Bool) :
    List (Nat × Packet) × List FwdLog :=
  forwardLoop iIdx packet wfail (List.range numIfaces)

/-- One observable outcome of the worker's blocking read, plus context
cancellation: the events a worker loop iteration can see. -/
inductive WEvent where
  | ctxDone
  | readTimeout
  | readErr (os : OSErr)
  | readOk (buf : Packet) (n : Nat) (wfail : Nat → Bool)

/-- Why (or whether) the worker loop ended. -/
inductive ExitKind where
  | ctxCancelled
  | readError (os : OSErr)
  | stillRunning
deriving DecidableEq

/-- Cumulative observable behaviour of one worker: the writes it issued,
the read-error log line (with its (group, interface, port) context) if
any, and how it exited. -/
structure WorkerRun where
  writes : List (Nat × Packet)
  errLog : Option (Str × Str × Int × OSErr)
  exit : ExitKind

/-- The worker loop of `startForwarding` for the triple with group
`group`, interface name `ifaceName` (index `iIdx` of `numIfaces`), and
listen port `port`, consuming a stream of read/cancellation events:
`ctx.Done` exits; a timeout retries; a non-timeout read error is logged
with full context and terminates the worker; a successful read of `n`
bytes is copied and fanned out to every other interface. -/
def runWorker (group ifaceName : Str) (port : Int) (numIfaces iIdx : Nat) :
    List WEvent → WorkerRun
  | [] => ⟨[], none, .stillRunning⟩
  | .ctxDone :: _ => ⟨[], none, .ctxCancelled⟩
  | .readTimeout :: rest => runWorker group ifaceName port numIfaces iIdx rest
  | .readErr os :: _ => ⟨[], some (group, ifaceName, port, os), .readError os⟩
  | .readOk buf n wfail :: rest =>
    let packet := goCopy buf n
    let r := runWorker group ifaceName port numIfaces iIdx rest
    ⟨(forwardAll numIfaces iIdx packet wfail).1 ++ r.writes, r.errLog, r.exit⟩

/-- The system of workers started by `startForwarding`: each worker runs
independently on its own listen socket's event stream; the registry is
read-only and shared. -/
def runSystem (group ifaceName : Triple → Str) (port : Triple → Int)
    (numIfaces : Nat) (streams : Triple → List WEvent) : Triple → WorkerRun :=
  fun t => runWorker (group t) (ifaceName t) (port t) numIfaces t.2.1 (streams t)

/-! ### The shutdown lifecycle as a labelled transition system

One state per goroutine: each worker is at the loop head (the `select`),
inside the deadline-bounded read, fanning out a received datagram, or
exited; `main` is blocked in `wg.Wait()`, closing the registry's sockets
one at a time, or done.  The signal-handler goroutine may set the shared
cancellation flag at any time. -/

/-- Worker control state inside `startForwarding`'s loop. -/
inductive WState where
  | loopHead
  | reading
  | forwarding (pending : List Nat)
  | exited
deriving DecidableEq

/-- `main`'s control state after `startForwarding`: blocked in
`wg.Wait()`, closing the `remaining` registry sockets, or after
`log.Println("All done.")`. -/
inductive MPC where
  | waiting
  | closing (remaining : Nat)
  | done
deriving DecidableEq

/-- Global state: the shared cancellation flag, each worker's state, and
`main`'s state. -/
structure Sys where
  cancelled : Bool
  wstate : Triple → WState
  mpc : MPC

/-- A triple is part of the configured topology. -/
def ValidT (nG nI nP : Nat) (t : Triple) : Prop :=
  t.1 < nG ∧ t.2.1 < nI ∧ t.2.2 < nP

/-- The peer interface indices a worker on interface `i` fans out to. -/
def peers (nI i : Nat) : List Nat :=
  (List.range nI).filter (fun j => j != i)

/-- Pointwise update of the worker-state map. -/
def updW (f : Triple → WState) (t : Triple) (v : WState) : Triple → WState :=
  fun u => if u = t then v else f u

/-- Transition labels: the signal handler's `cancel()`, the worker steps
(select branches, read outcomes, individual fan-out writes, loop back),
and `main`'s `wg.Wait()` return, socket closes, and final log line. -/
inductive Label where
  | sigCancel
  | wSelectDone (t : Triple)
  | wSelectDefault (t : Triple)
  | wReadTimeout (t : Triple)
  | wReadErr (t : Triple)
  | wReadOk (t : Triple)
  | wWrite (t : Triple) (j : Nat)
  | wLoopBack (t : Triple)
  | mWaitReturn
  | mCloseSock
  | mAllDone
deriving DecidableEq

/-- Small-step semantics of the concurrent program for a topology of
`nG × nI × nP` triples.  The `select` takes the `ctx.Done()` branch
exactly when the context is cancelled (otherwise `default`), reads
resolve to a timeout, an error, or a datagram, fan-out writes happen one
peer at a time, `wg.Wait()` returns only once every worker has exited,
and the sockets (two per triple) are closed one per step afterwards. -/
inductive Step (nG nI nP : Nat) : Sys → Label → Sys → Prop where
  | sigCancel (s : Sys) :
      Step nG nI nP s .sigCancel { s with cancelled := true }
  | wSelectDone (s : Sys) (t : Triple) (hv : ValidT nG nI nP t)
      (hw : s.wstate t = .loopHead) (hc : s.cancelled = true) :
      Step nG nI nP s (.wSelectDone t) { s with wstate := updW s.wstate t .exited }
  | wSelectDefault (s : Sys) (t : Triple) (hv : ValidT nG nI nP t)
      (hw : s.wstate t = .loopHead) (hc : s.cancelled = false) :
      Step nG nI nP s (.wSelectDefault t) { s with wstate := updW s.wstate t .reading }
  | wReadTimeout (s : Sys) (t : Triple) (hv : ValidT nG nI nP t)
      (hw : s.wstate t = .reading) :
      Step nG nI nP s (.wReadTimeout t) { s with wstate := updW s.wstate t .loopHead }
  | wReadErr (s : Sys) (t : Triple) (hv : ValidT nG nI nP t)
      (hw : s.wstate t = .reading) :
      Step nG nI nP s (.wReadErr t) { s with wstate := updW s.wstate t .exited }
  | wReadOk (s : Sys) (t : Triple) (hv : ValidT nG nI nP t)
      (hw : s.wstate t = .reading) :
      Step nG nI nP s (.wReadOk t)
        { s with wstate := updW s.wstate t (.forwarding (peers nI t.2.1)) }
  | wWrite (s : Sys) (t : Triple) (j : Nat) (rest : List Nat)
      (hv : ValidT nG nI nP t) (hw : s.wstate t = .forwarding (j :: rest)) :
      Step nG nI nP s (.wWrite t j) { s with wstate := updW s.wstate t (.forwarding rest) }
  | wLoopBack (s : Sys) (t : Triple) (hv : ValidT nG nI nP t)
      (hw : s.wstate t = .forwarding []) :
      Step nG nI nP s (.wLoopBack t) { s with wstate := updW s.wstate t .loopHead }
  | mWaitReturn (s : Sys) (hm : s.mpc = .waiting)
      (hall : ∀ t, ValidT nG nI nP t → s.wstate t = .exited) :
      Step nG nI nP s .mWaitReturn { s with mpc := .closing (2 * (nG * nI * nP)) }
  | mCloseSock (s : Sys) (k : Nat) (hm : s.mpc = .closing (k + 1)) :
      Step nG nI nP s .mCloseSock { s with mpc := .closing k }
  | mAllDone (s : Sys) (hm : s.mpc = .closing 0) :
      Step nG nI nP s .mAllDone { s with mpc := .done }

/-- The initial steady state: not cancelled, every worker at its loop
head, `main` blocked in `wg.Wait()`. -/
def sysInit : Sys := ⟨false, fun _ => .loopHead, .waiting⟩

/-- Reachability from the initial steady state. -/
def Reachable (nG nI nP : Nat) (s : Sys) : Prop :=
  Relation.ReflTransGen (fun a b => ∃ l, Step nG nI nP a l b) sysInit s

/-- Labels by which a worker touches its sockets: issuing a read on the
listen socket or writing to a peer's send socket. -/
def IsWorkerSockOp : Label → Prop
  | .wSelectDefault _ => True
  | .wWrite _ _ => True
  | _ => False

/-- Labels belonging to worker `t`. -/
def WorkerLabelOf (l : Label) (t : Triple) : Prop :=
  l = .wSelectDone t ∨ l = .wSelectDefault t ∨ l = .wReadTimeout t ∨
  l = .wReadErr t ∨ l = .wReadOk t ∨ (∃ j, l = .wWrite t j) ∨ l = .wLoopBack t

/-- Termination measure for a worker once cancellation is signalled. -/
def wRank (nI : Nat) : WState → Nat
  | .exited => 0
  | .loopHead => 1
  | .forwarding pending => 2 + pending.length
  | .reading => 3 + nI

/-- Specification-side notion of a numeric port string: a non-empty run
of decimal digits, optionally signed. -/
def isNumericStr (s : Str) : Bool :=
  let body := match s with
    | '-' :: r => r
    | '+' :: r => r
    | _ => s
  !body.isEmpty && body.all Char.isDigit

/-- A non-empty string made only of commas and whitespace. -/
def CommaSpaceOnly (s : Str) : Prop :=
  s ≠ [] ∧ ∀ c ∈ s, c = ',' ∨ goIsSpace c = true

/-- An operating system in which every resolution and socket-creation
step succeeds; used to instantiate theorems on concrete inputs. -/
def envAllOk : Env :=
  ⟨fun _ => true, fun _ => true, fun _ => some ['l'], fun _ _ _ => none, fun _ _ _ => none⟩

/-- An operating system in which every multicast listen fails with OS
error 13; used to instantiate the fail-fast theorem. -/
def envFailListen : Env :=
  { envAllOk with listenErr := fun _ _ _ => some 13 }

/-- Concrete reachable state for a 1×1×1 topology: cancelled, the single
worker exited, `main` closing its two sockets. -/
def sClosing : Sys :=
  ⟨true, updW (fun _ => .loopHead) (0, 0, 0) .exited, .closing 2⟩

/-! ## Helper lemmas -/

theorem forwardLoop_fst (i : Nat) (pkt : Packet) (wf : Nat → Bool) (L : List Nat) :
    (forwardLoop i pkt wf L).1 = (L.filter (fun j => j != i)).map (fun j => (j, pkt)) := by
  induction L with
  | nil => rfl
  | cons j rest ih =>
    by_cases h : j = i
    · simp [forwardLoop, h, List.filter_cons, ih]
    · simp [forwardLoop, h, List.filter_cons, ih]

theorem forwardLoop_snd (i : Nat) (pkt : Packet) (wf : Nat → Bool) (L : List Nat) :
    (forwardLoop i pkt wf L).2 = (L.filter (fun j => j != i)).map
      (fun j => if wf j then FwdLog.fwdError j else FwdLog.fwdVerbose j pkt.length) := by
  induction L with
  | nil => rfl
  | cons j rest ih =>
    by_cases h : j = i
    · simp [forwardLoop, h, List.filter_cons, ih]
    · simp [forwardLoop, h, List.filter_cons, ih]

theorem countP_filter_range (n i j : Nat) :
    ((List.range n).filter (fun k => k != i)).countP (fun k => k == j)
      = if j < n ∧ j ≠ i then 1 else 0 := by
  induction n with
  | zero => simp
  | succ m ih =>
    rw [List.range_succ, List.filter_append, List.countP_append, ih]
    have hsing : (List.filter (fun k => k != i) [m]).countP (fun k => k == j)
        = if m ≠ i ∧ m = j then 1 else 0 := by
      by_cases h1 : m = i
      · simp [h1]
      · by_cases h2 : m = j
        · subst h2
          simp [List.filter_cons, List.countP_cons, h1]
        · simp [List.filter_cons, List.countP_cons, h1, h2]
    rw [hsing]
    split_ifs <;> omega

theorem reachable_closed (nG nI nP : Nat) (s : Sys) (h : Reachable nG nI nP s) :
    s.mpc ≠ .waiting → ∀ t, ValidT nG nI nP t → s.wstate t = .exited := by
  induction h with
  | refl => intro hm; exact absurd rfl hm
  | tail _ hstep ih =>
    obtain ⟨l, hstep⟩ := hstep
    cases hstep with
    | sigCancel => exact ih
    | wSelectDone t hv hw hc =>
      intro hm
      exact absurd (ih hm t hv) (by simp [hw])
    | wSelectDefault t hv hw hc =>
      intro hm
      exact absurd (ih hm t hv) (by simp [hw])
    | wReadTimeout t hv hw =>
      intro hm
      exact absurd (ih hm t hv) (by simp [hw])
    | wReadErr t hv hw =>
      intro hm
      exact absurd (ih hm t hv) (by simp [hw])
    | wReadOk t hv hw =>
      intro hm
      exact absurd (ih hm t hv) (by simp [hw])
    | wWrite t j rest hv hw =>
      intro hm
      exact absurd (ih hm t hv) (by simp [hw])
    | wLoopBack t hv hw =>
      intro hm
      exact absurd (ih hm t hv) (by simp [hw])
    | mWaitReturn hm hall => intro _; exact hall
    | mCloseSock k hm =>
      intro _
      exact ih (by simp [hm])
    | mAllDone hm =>
      intro _
      exact ih (by simp [hm])

theorem provisionPorts_eq (env : Env) (g i lip : Str)
    (hlip : env.ipv4Of i = some lip) (pds : List (Int × Int)) :
    (provisionPorts env g i lip pds).2 =
      match pds.findSome? (stepFail env g i) with
      | some e => .error e
      | none => .ok (pds.map (mkSockPair g i lip)) := by
  induction pds with
  | nil => rfl
  | cons pd rest ih =>
    rw [List.findSome?_cons]
    cases hl : env.listenErr g i pd.1 with
    | some os => simp [provisionPorts, stepFail, hl]
    | none =>
      cases hd : env.dialErr g i pd.2 with
      | some os =>
        simp [provisionPorts, stepFail, hl, hd, hlip]
      | none =>
        simp only [provisionPorts, stepFail, hl, hd, ih]
        cases rest.findSome? (stepFail env g i) <;> rfl

theorem provisionIfaces_eq (env : Env) (g : Str) (ifaces : List Str)
    (pds : List (Int × Int))
    (hres : ∀ i ∈ ifaces, env.ifaceExists i = true ∧ (env.ipv4Of i).isSome = true) :
    (provisionIfaces env g ifaces pds).2 =
      match ifaces.findSome? (fun i => pds.findSome? (stepFail env g i)) with
      | some e => .error e
      | none => .ok (ifaces.map fun i =>
          pds.map (mkSockPair g i ((env.ipv4Of i).getD []))) := by
  induction ifaces with
  | nil => rfl
  | cons i rest ih =>
    obtain ⟨hex, hip⟩ := hres i (List.mem_cons_self i rest)
    obtain ⟨lip, hlip⟩ := Option.isSome_iff_exists.mp hip
    rw [List.findSome?_cons]
    have hports := provisionPorts_eq env g i lip hlip pds
    cases hf : pds.findSome? (stepFail env g i) with
    | some e =>
      rw [hf] at hports
      simp [provisionIfaces, hex, hlip, hports]
    | none =>
      rw [hf] at hports
      have ihr := ih (fun j hj => hres j (List.mem_cons_of_mem i hj))
      simp only [provisionIfaces, hex, if_true, hlip, hports]
      rw [ihr]
      cases rest.findSome? (fun j => pds.findSome? (stepFail env g j)) with
      | some e => rfl
      | none => simp [hlip]

theorem initConnGroups_eq (env : Env) (groups ifaces : List Str)
    (pds : List (Int × Int)) (hres : ResolutionOk env groups ifaces) :
    (initConnGroups env groups ifaces pds).2 =
      match firstFailureSpec env groups ifaces pds with
      | some e => .error e
      | none => .ok (groups.map fun g => ifaces.map fun i =>
          pds.map (mkSockPair g i ((env.ipv4Of i).getD []))) := by
  obtain ⟨hgr, hif⟩ := hres
  induction groups with
  | nil => rfl
  | cons g rest ih =>
    have hgp : env.parseIPOk g = true := hgr g (List.mem_cons_self g rest)
    have hifc := provisionIfaces_eq env g ifaces pds hif
    rw [firstFailureSpec, List.findSome?_cons]
    cases hf : ifaces.findSome? (fun i => pds.findSome? (stepFail env g i)) with
    | some e =>
      rw [hf] at hifc
      simp [initConnGroups, hgp, hifc]
    | none =>
      rw [hf] at hifc
      have ihr := ih (fun g' hg' => hgr g' (List.mem_cons_of_mem g hg'))
      rw [firstFailureSpec] at ihr
      simp only [initConnGroups, hgp, if_true, hifc]
      rw [ihr]
      cases rest.findSome?
          (fun g' => ifaces.findSome? (fun i => pds.findSome? (stepFail env g' i))) with
      | some e => rfl
      | none => rfl

theorem provisionPorts_ok (env : Env) (g i lip : Str) (pds : List (Int × Int))
    (ps : List SockPair) (h : (provisionPorts env g i lip pds).2 = .ok ps) :
    ps = pds.map (mkSockPair g i lip) := by
  induction pds generalizing ps with
  | nil => simpa [provisionPorts] using h.symm
  | cons pd rest ih =>
    cases hl : env.listenErr g i pd.1 with
    | some os => simp [provisionPorts, hl] at h
    | none =>
      cases hd : env.dialErr g i pd.2 with
      | some os => simp [provisionPorts, hl, hd] at h
      | none =>
        simp only [provisionPorts, hl, hd] at h
        cases hr : (provisionPorts env g i lip rest).2 with
        | error e => rw [hr] at h; simp at h
        | ok ps' =>
          rw [hr] at h
          simp only [Except.ok.injEq] at h
          subst h
          rw [List.map_cons, ih ps' hr]

theorem provisionIfaces_ok (env : Env) (g : Str) (ifaces : List Str)
    (pds : List (Int × Int)) (rows : List (List SockPair))
    (h : (provisionIfaces env g ifaces pds).2 = .ok rows) :
    rows = ifaces.map fun i => pds.map (mkSockPair g i ((env.ipv4Of i).getD [])) := by
  induction ifaces generalizing rows with
  | nil => simpa [provisionIfaces] using h.symm
  | cons i rest ih =>
    cases hex : env.ifaceExists i with
    | false => simp [provisionIfaces, hex] at h
    | true =>
      cases hlip : env.ipv4Of i with
      | none => simp [provisionIfaces, hex, hlip] at h
      | some lip =>
        simp only [provisionIfaces, hex, if_true, hlip] at h
        cases hp : (provisionPorts env g i lip pds).2 with
        | error e => rw [hp] at h; simp at h
        | ok ps =>
          rw [hp] at h
          cases hr : (provisionIfaces env g rest pds).2 with
          | error e => rw [hr] at h; simp at h
          | ok rows' =>
            rw [hr] at h
            simp only [Except.ok.injEq] at h
            subst h
            rw [List.map_cons, ih rows' hr, provisionPorts_ok env g i lip pds ps hp,
              hlip]
            rfl

theorem initConnGroups_ok (env : Env) (groups ifaces : List Str)
    (pds : List (Int × Int)) (reg : Registry)
    (h : (initConnGroups env groups ifaces pds).2 = .ok reg) :
    reg = groups.map fun g => ifaces.map fun i =>
        pds.map (mkSockPair g i ((env.ipv4Of i).getD [])) := by
  induction groups generalizing reg with
  | nil => simpa [initConnGroups] using h.symm
  | cons g rest ih =>
    cases hgp : env.parseIPOk g with
    | false => simp [initConnGroups, hgp] at h
    | true =>
      simp only [initConnGroups, hgp, if_true] at h
      cases hp : (provisionIfaces env g ifaces pds).2 with
      | error e => rw [hp] at h; simp at h
      | ok rows =>
        rw [hp] at h
        cases hr : (initConnGroups env rest ifaces pds).2 with
        | error e => rw [hr] at h; simp at h
        | ok reg' =>
          rw [hr] at h
          simp only [Except.ok.injEq] at h
          subst h
          rw [List.map_cons, ih reg' hr, provisionIfaces_ok env g ifaces pds rows hp]

theorem genuine_of_firstFailure (env : Env) (groups ifaces : List Str)
    (pds : List (Int × Int)) (e : FatalError)
    (h : firstFailureSpec env groups ifaces pds = some e) :
    GenuineSockFailure env groups ifaces pds e := by
  obtain ⟨g, hg, hg2⟩ := List.exists_of_findSome?_eq_some h
  obtain ⟨i, hi2, hi3⟩ := List.exists_of_findSome?_eq_some hg2
  obtain ⟨pd, hpd, hpd2⟩ := List.exists_of_findSome?_eq_some hi3
  cases hl : env.listenErr g i pd.1 with
  | some os =>
    rw [stepFail, hl] at hpd2
    cases hpd2
    exact ⟨hg, hi2, ⟨pd.2, by simpa using hpd⟩, hl⟩
  | none =>
    cases hd : env.dialErr g i pd.2 with
    | some os =>
      rw [stepFail, hl, hd] at hpd2
      cases hpd2
      exact ⟨hg, hi2, rfl, ⟨pd.1, by simpa using hpd⟩, hd⟩
    | none => rw [stepFail, hl, hd] at hpd2; cases hpd2

theorem splitComma_ne_nil (s : Str) : splitComma s ≠ [] := by
  induction s with
  | nil => simp [splitComma]
  | cons c cs ih =>
    rw [splitComma]
    by_cases h : c = ','
    · simp [h]
    · simp only [h, if_false]
      cases hsp : splitComma cs with
      | nil => simp
      | cons p ps => simp

theorem mem_splitComma (s : Str) (part : Str) (hp : part ∈ splitComma s) :
    ∀ c ∈ part, c ∈ s ∧ c ≠ ',' := by
  induction s generalizing part with
  | nil =>
    rw [splitComma] at hp
    simp at hp
    subst hp
    intro c hc
    simp at hc
  | cons a cs ih =>
    rw [splitComma] at hp
    by_cases h : a = ','
    · rw [if_pos h] at hp
      rcases List.mem_cons.mp hp with h1 | h1
      · subst h1; intro c hc; simp at hc
      · intro c hc
        obtain ⟨hm, hne⟩ := ih part h1 c hc
        exact ⟨List.mem_cons_of_mem a hm, hne⟩
    · rw [if_neg h] at hp
      cases hsp : splitComma cs with
      | nil => exact absurd hsp (splitComma_ne_nil cs)
      | cons p ps =>
        rw [hsp] at hp
        rcases List.mem_cons.mp hp with h1 | h1
        · subst h1
          intro c hc
          rcases List.mem_cons.mp hc with h2 | h2
          · subst h2; exact ⟨List.mem_cons_self c cs, h⟩
          · obtain ⟨hm, hne⟩ := ih p (hsp ▸ List.mem_cons_self p ps) c h2
            exact ⟨List.mem_cons_of_mem a hm, hne⟩
        · intro c hc
          obtain ⟨hm, hne⟩ := ih part (hsp ▸ List.mem_cons_of_mem p h1) c hc
          exact ⟨List.mem_cons_of_mem a hm, hne⟩

theorem trimSpace_all_space (l : Str) (h : ∀ c ∈ l, goIsSpace c = true) :
    trimSpace l = [] := by
  rw [trimSpace, List.dropWhile_eq_nil_iff.mpr h]
  rfl

theorem parseCommaSeparated_comma_space (s : Str)
    (h : ∀ c ∈ s, c = ',' ∨ goIsSpace c = true) :
    parseCommaSeparated s = [] := by
  rw [parseCommaSeparated]
  rw [List.filter_eq_nil_iff]
  intro t ht
  obtain ⟨part, hpart, rfl⟩ := List.mem_map.mp ht
  have htrim : trimSpace part = [] := by
    apply trimSpace_all_space
    intro c hc
    obtain ⟨hm, hne⟩ := mem_splitComma s part hpart c hc
    rcases h c hm with h1 | h1
    · exact absurd h1 hne
    · exact h1
  rw [htrim]
  simp

theorem workerTriples_zero_ifaces (nG nP : Nat) : workerTriples nG 0 nP = [] := by
  simp [workerTriples]

theorem workerTriples_zero_ports (nG nI : Nat) : workerTriples nG nI 0 = [] := by
  simp [workerTriples]

theorem initConnGroups_no_ifaces (env : Env) (groups : List Str)
    (pds : List (Int × Int)) (h : ∀ g ∈ groups, env.parseIPOk g = true) :
    initConnGroups env groups [] pds = ([], .ok (groups.map fun _ => [])) := by
  induction groups with
  | nil => rfl
  | cons g rest ih =>
    have hg := h g (List.mem_cons_self g rest)
    rw [initConnGroups, if_pos hg]
    rw [ih (fun g' hg' => h g' (List.mem_cons_of_mem g hg'))]
    simp [provisionIfaces]

theorem provisionIfaces_no_pds (env : Env) (g : Str) (ifaces : List Str)
    (h : ∀ i ∈ ifaces, env.ifaceExists i = true ∧ (env.ipv4Of i).isSome = true) :
    provisionIfaces env g ifaces [] = ([], .ok (ifaces.map fun _ => [])) := by
  induction ifaces with
  | nil => rfl
  | cons i rest ih =>
    obtain ⟨hex, hip⟩ := h i (List.mem_cons_self i rest)
    obtain ⟨lip, hlip⟩ := Option.isSome_iff_exists.mp hip
    rw [provisionIfaces, if_pos hex, hlip]
    rw [ih (fun i' hi2 => h i' (List.mem_cons_of_mem i hi2))]
    rfl

theorem initConnGroups_no_pds (env : Env) (groups ifaces : List Str)
    (hres : ResolutionOk env groups ifaces) :
    initConnGroups env groups ifaces []
      = ([], .ok (groups.map fun _ => ifaces.map fun _ => [])) := by
  obtain ⟨hgr, hif⟩ := hres
  induction groups with
  | nil => rfl
  | cons g rest ih =>
    have hg := hgr g (List.mem_cons_self g rest)
    rw [initConnGroups, if_pos hg, provisionIfaces_no_pds env g ifaces hif]
    rw [ih (fun g' hg' => hgr g' (List.mem_cons_of_mem g hg'))]
    simp

/-! ## Claims -/

/-- C1: a datagram of `N` bytes received by the worker of interface `A`
is written exactly once, byte-for-byte and with the same length `N`
(including `N = 0`), to the send socket of every other interface index,
and never to interface `A`'s own send socket. -/
theorem c1_fanout_exact (numIfaces iIdx : Nat) (buf : Packet) (n : Nat)
    (wfail : Nat → Bool) (hi : iIdx < numIfaces) (hn : n ≤ buf.length) :
    (goCopy buf n).length = n ∧
    (∀ w ∈ (forwardAll numIfaces iIdx (goCopy buf n) wfail).1, w.2 = goCopy buf n) ∧
    (∀ j, j < numIfaces → j ≠ iIdx →
      ((forwardAll numIfaces iIdx (goCopy buf n) wfail).1).countP (fun w => w.1 == j) = 1) ∧
    ((forwardAll numIfaces iIdx (goCopy buf n) wfail).1).countP (fun w => w.1 == iIdx) = 0 := by
  have hfst := forwardLoop_fst iIdx (goCopy buf n) wfail (List.range numIfaces)
  refine ⟨by simp [goCopy, hn], ?_, ?_, ?_⟩
  · intro w hw
    rw [forwardAll, hfst] at hw
    obtain ⟨j, _, rfl⟩ := List.mem_map.mp hw
    rfl
  · intro j hj hne
    rw [forwardAll, hfst, List.countP_map]
    have := countP_filter_range numIfaces iIdx j
    simpa [Function.comp, if_pos (And.intro hj hne)] using this
  · rw [forwardAll, hfst, List.countP_map]
    have := countP_filter_range numIfaces iIdx iIdx
    simp [Function.comp] at this ⊢

/-- Witness for C1 at a concrete input: three interfaces, receipt on
interface 0 of the first two bytes of `[7, 8, 9]`, all writes failing. -/
theorem c1_fanout_exact_witness :
    ((forwardAll 3 0 (goCopy [7, 8, 9] 2) (fun _ => true)).1).countP
      (fun w => w.1 == 1) = 1 :=
  (c1_fanout_exact 3 0 [7, 8, 9] 2 (fun _ => true) (by decide) (by decide)).2.2.1
    1 (by decide) (by decide)

/-- C5: a failed write to one peer is only logged: the attempted writes
are the same as with no failures at all, every failing peer gets its log
line, and the worker's receive loop continues with the next events. -/
theorem c5_writes_besteffort (numIfaces iIdx : Nat) (packet : Packet)
    (wfail : Nat → Bool) :
    (forwardAll numIfaces iIdx packet wfail).1
      = (forwardAll numIfaces iIdx packet (fun _ => false)).1 ∧
    (∀ j, j < numIfaces → j ≠ iIdx → wfail j = true →
      FwdLog.fwdError j ∈ (forwardAll numIfaces iIdx packet wfail).2) ∧
    (∀ group ifaceName port buf n rest,
      runWorker group ifaceName port numIfaces iIdx (.readOk buf n wfail :: rest) =
        ⟨(forwardAll numIfaces iIdx (goCopy buf n) wfail).1
            ++ (runWorker group ifaceName port numIfaces iIdx rest).writes,
          (runWorker group ifaceName port numIfaces iIdx rest).errLog,
          (runWorker group ifaceName port numIfaces iIdx rest).exit⟩) := by
  refine ⟨?_, ?_, ?_⟩
  · rw [forwardAll, forwardAll, forwardLoop_fst, forwardLoop_fst]
  · intro j hj hne hwf
    rw [forwardAll, forwardLoop_snd]
    exact List.mem_map.mpr ⟨j, List.mem_filter.mpr
      ⟨List.mem_range.mpr hj, by simp [hne]⟩, by simp [hwf]⟩
  · intro group ifaceName port buf n rest
    rfl

/-- Witness for C5 at a concrete input: with peer 2's write failing, the
error is logged for peer 2. -/
theorem c5_writes_besteffort_witness :
    FwdLog.fwdError 2 ∈ (forwardAll 3 0 [5] (fun j => j == 2)).2 :=
  (c5_writes_besteffort 3 0 [5] (fun j => j == 2)).2.1 2 (by decide) (by decide) (by decide)

/-- C6: when the destination-port flag is omitted (empty), the
destination-port list is the listen-port list itself, so
`destPort[i] = listenPort[i]` at every index. -/
theorem c6_destports_default (ports : List Int) :
    computeDestPorts [] ports = .ok ports ∧
    ∀ dps, computeDestPorts [] ports = .ok dps →
      ∀ i (h1 : i < dps.length) (h2 : i < ports.length),
        dps.get ⟨i, h1⟩ = ports.get ⟨i, h2⟩ := by
  refine ⟨rfl, ?_⟩
  intro dps h i h1 h2
  have hpd : ports = dps := by
    simpa [computeDestPorts] using h
  subst hpd
  rfl

/-- Witness for C6 at a concrete input. -/
theorem c6_destports_default_witness :
    computeDestPorts [] [1900, 1990] = .ok [1900, 1990] :=
  (c6_destports_default [1900, 1990]).1

/-- C8: an explicit destination-port list whose length differs from the
listen-port list makes startup fail with the configuration-mismatch
fatal error (exit status 1) with no socket opened and no worker started. -/
theorem c8_destport_mismatch (env : Env) (iF pF gF dF : Str) (ports dps : List Int)
    (hiF : iF ≠ []) (hpF : pF ≠ []) (hgF : gF ≠ [])
    (hports : parsePorts (parseCommaSeparated pF) = .ok ports)
    (hdF : dF ≠ [])
    (hdps : parsePorts (parseCommaSeparated dF) = .ok dps)
    (hlen : dps.length ≠ ports.length) :
    runMain env iF pF gF dF
      = ⟨[], .fatal (.destPortMismatch dps.length ports.length)⟩ ∧
    exitCodeOf (runMain env iF pF gF dF).outcome = some 1 ∧
    workersOf (runMain env iF pF gF dF).outcome = [] := by
  have h1 : runMain env iF pF gF dF
      = ⟨[], .fatal (.destPortMismatch dps.length ports.length)⟩ := by
    rw [runMain]
    simp only [List.isEmpty_iff, hiF, hpF, hgF, if_false, hports]
    rw [computeDestPorts]
    simp only [List.isEmpty_iff, hdF, if_false, hdps, hlen, if_false]
  exact ⟨h1, by rw [h1]; rfl, by rw [h1]; rfl⟩

/-- Witness for C8 at a concrete input: two destination ports against one
listen port. -/
theorem c8_destport_mismatch_witness :
    runMain envAllOk "eth0".data "1900".data "239.255.255.250".data "2021,2022".data
      = ⟨[], .fatal (.destPortMismatch 2 1)⟩ :=
  (c8_destport_mismatch envAllOk "eth0".data "1900".data "239.255.255.250".data
    "2021,2022".data [1900] [2021, 2022] (by decide) (by decide) (by decide) rfl
    (by decide) rfl (by decide)).1

/-- C9 counterexample: `"80abc"` is not a numeric string, yet
`parsePorts` accepts it (as 80), because `fmt.Sscanf "%d"` ignores
trailing characters; so parsing does not fail on every non-numeric port
string. -/
theorem c9_counterexample :
    isNumericStr "80abc".data = false ∧ parsePorts ["80abc".data] = .ok [80] :=
  ⟨by decide, rfl⟩

/-- C9 (amended): port parsing fails for every string whose
whitespace/sign-stripped prefix has no leading decimal digits and for
every scanned value outside [1, 65535]; a string whose leading integer
prefix is a valid in-range port is accepted with that value, trailing
characters ignored. -/
theorem c9_port_scan (s : Str) :
    (sscanfD s = none → parsePorts [s] = .error (.invalidPort s)) ∧
    (∀ v, sscanfD s = some v → 0 < v → v ≤ 65535 → parsePorts [s] = .ok [v]) ∧
    (∀ v, sscanfD s = some v → (v ≤ 0 ∨ 65535 < v) →
      parsePorts [s] = .error (.outOfRange v)) := by
  refine ⟨?_, ?_, ?_⟩
  · intro h
    rw [parsePorts, h]
  · intro v h hpos hle
    rw [parsePorts, h]
    simp only [if_neg (by omega : ¬(v ≤ 0 ∨ 65535 < v))]
    rfl
  · intro v h hout
    rw [parsePorts, h]
    simp only [if_pos hout]

/-- Witness for C9 (amended) at `"80abc"`. -/
theorem c9_port_scan_witness : parsePorts ["80abc".data] = .ok [80] :=
  (c9_port_scan "80abc".data).2.1 80 rfl (by decide) (by decide)

/-- C3: under successful topology resolution, the first socket-creation
failure in iteration order makes `initializeConnections` fail with
exactly that error; `main` then exits fatally with status 1 before any
worker is started, and the reported error names a genuinely failing
(group, interface, port) socket-creation step together with the
underlying OS error. -/
theorem c3_failfast_provisioning (env : Env) (groups ifaces : List Str)
    (ports destPorts : List Int) (e : FatalError)
    (hres : ResolutionOk env groups ifaces)
    (hff : firstFailureSpec env groups ifaces (ports.zip destPorts) = some e) :
    (initializeConnections env groups ifaces ports destPorts).2 = .error e ∧
    runMainParsed env groups ifaces ports destPorts
      = ⟨(initializeConnections env groups ifaces ports destPorts).1,
         .fatal (.provision e)⟩ ∧
    exitCodeOf (runMainParsed env groups ifaces ports destPorts).outcome = some 1 ∧
    workersOf (runMainParsed env groups ifaces ports destPorts).outcome = [] ∧
    GenuineSockFailure env groups ifaces (ports.zip destPorts) e := by
  have heq := initConnGroups_eq env groups ifaces (ports.zip destPorts) hres
  rw [hff] at heq
  have h1 : (initializeConnections env groups ifaces ports destPorts).2 = .error e := heq
  refine ⟨h1, ?_, ?_, ?_, genuine_of_firstFailure env groups ifaces _ e hff⟩
  · simp [runMainParsed, h1]
  · simp [runMainParsed, h1, exitCodeOf]
  · simp [runMainParsed, h1, workersOf]

/-- Witness for C3: with every listen failing with OS error 13, the very
first triple is reported and provisioning aborts. -/
theorem c3_failfast_provisioning_witness :
    (initializeConnections envFailListen ["g".data] ["e".data] [1900] [1900]).2
      = .error (.listenFail "g".data "e".data 1900 13) :=
  (c3_failfast_provisioning envFailListen ["g".data] ["e".data] [1900] [1900]
    (.listenFail "g".data "e".data 1900 13)
    ⟨by decide, by decide⟩ rfl).1

/-- C7: a successfully provisioned registry is exactly the triple-nested
table holding one socket pair per (group, interface, port-index)
combination of the full Cartesian product; the workers are started only
with this complete registry; and in every reachable state in which
`main` has moved past `wg.Wait()` (so is closing or has closed sockets),
every worker has already exited. -/
theorem c7_registry_invariant (env : Env) (groups ifaces : List Str)
    (ports destPorts : List Int) (opened : List OpenSock) (reg : Registry)
    (hlen : destPorts.length = ports.length)
    (h : initializeConnections env groups ifaces ports destPorts = (opened, .ok reg)) :
    reg = (groups.map fun g => ifaces.map fun i =>
        (ports.zip destPorts).map (mkSockPair g i ((env.ipv4Of i).getD []))) ∧
    reg.length = groups.length ∧
    (∀ row ∈ reg, row.length = ifaces.length ∧
      ∀ cell ∈ row, cell.length = ports.length) ∧
    runMainParsed env groups ifaces ports destPorts
      = ⟨opened, .running reg (workerTriples groups.length ifaces.length ports.length)⟩ ∧
    (∀ nG nI nP s, Reachable nG nI nP s → s.mpc ≠ .waiting →
      ∀ t, ValidT nG nI nP t → s.wstate t = .exited) := by
  have h2 : (initializeConnections env groups ifaces ports destPorts).2 = .ok reg := by
    rw [h]
  have hmap := initConnGroups_ok env groups ifaces (ports.zip destPorts) reg h2
  have hzlen : (ports.zip destPorts).length = ports.length := by
    rw [List.length_zip, hlen, Nat.min_self]
  refine ⟨hmap, ?_, ?_, ?_, fun nG nI nP s hr => reachable_closed nG nI nP s hr⟩
  · rw [hmap, List.length_map]
  · intro row hrow
    rw [hmap] at hrow
    obtain ⟨g, _, rfl⟩ := List.mem_map.mp hrow
    refine ⟨List.length_map _ _, ?_⟩
    intro cell hcell
    obtain ⟨i, _, rfl⟩ := List.mem_map.mp hcell
    rw [List.length_map, hzlen]
  · simp [runMainParsed, h]

/-- Witness for C7 at a concrete 1×1×1 topology. -/
theorem c7_registry_invariant_witness :
    ([[[mkSockPair "g".data "e".data ['l'] (1900, 1900)]]] : Registry).length
      = ["g".data].length :=
  (c7_registry_invariant envAllOk ["g".data] ["e".data] [1900] [1900]
    [.listen "g".data "e".data 1900, .send "g".data ['l'] 1900]
    [[[mkSockPair "g".data "e".data ['l'] (1900, 1900)]]] rfl rfl).2.1

/-- C10: a flag value consisting only of commas and whitespace is
non-empty, so the required-flag validation passes, yet list parsing
returns the empty list; `main` then starts successfully — outcome
`running`, no configuration error — with zero sockets opened and zero
workers, whichever of the three required flags (groups, interfaces,
ports) carries the degenerate value. -/
theorem c10_comma_space_flags (env : Env) (s iF pF gF : Str)
    (hs : CommaSpaceOnly s) :
    s ≠ [] ∧
    parseCommaSeparated s = [] ∧
    (∀ ports, iF ≠ [] → pF ≠ [] →
      parsePorts (parseCommaSeparated pF) = .ok ports →
      runMain env iF pF s [] = ⟨[], .running [] []⟩) ∧
    (∀ ports, pF ≠ [] → gF ≠ [] →
      parsePorts (parseCommaSeparated pF) = .ok ports →
      (∀ g ∈ (parseCommaSeparated gF).map trimSpace, env.parseIPOk g = true) →
      runMain env s pF gF []
        = ⟨[], .running (((parseCommaSeparated gF).map trimSpace).map fun _ => []) []⟩) ∧
    (iF ≠ [] → gF ≠ [] →
      ResolutionOk env ((parseCommaSeparated gF).map trimSpace) (parseCommaSeparated iF) →
      runMain env iF s gF []
        = ⟨[], .running (((parseCommaSeparated gF).map trimSpace).map
            fun _ => (parseCommaSeparated iF).map fun _ => []) []⟩) := by
  obtain ⟨hne, hcs⟩ := hs
  have hparse : parseCommaSeparated s = [] := parseCommaSeparated_comma_space s hcs
  refine ⟨hne, hparse, ?_, ?_, ?_⟩
  · intro ports hiF hpF hports
    rw [runMain]
    simp only [List.isEmpty_iff, hiF, hpF, hne, if_false, hports, hparse]
    simp only [runMainParsed]
    simp [computeDestPorts, initializeConnections, initConnGroups, workerTriples]
  · intro ports hpF hgF hports hgr
    rw [runMain]
    simp only [List.isEmpty_iff, hne, hpF, hgF, if_false, hports, hparse]
    simp only [runMainParsed]
    have hinit := initConnGroups_no_ifaces env ((parseCommaSeparated gF).map trimSpace)
      (ports.zip ports) hgr
    rw [hparse] at *
    simp only [computeDestPorts, List.isEmpty_nil, if_true, initializeConnections,
      hparse, hinit]
    simp [workerTriples_zero_ifaces, hparse]
  · intro hiF hgF hres
    rw [runMain]
    simp only [List.isEmpty_iff, hiF, hne, hgF, if_false, hparse]
    have hports : parsePorts ([] : List Str) = .ok [] := rfl
    rw [hports]
    simp only [runMainParsed]
    have hinit := initConnGroups_no_pds env ((parseCommaSeparated gF).map trimSpace)
      (parseCommaSeparated iF) hres
    simp only [computeDestPorts, List.isEmpty_nil, if_true, initializeConnections,
      List.zip_nil_left, hinit]
    simp [workerTriples_zero_ports]

/-- Witness for C10 at the concrete flag value `",,"` in the groups
position. -/
theorem c10_comma_space_flags_witness :
    runMain envAllOk "eth0".data "1900".data ",,".data [] = ⟨[], .running [] []⟩ :=
  (c10_comma_space_flags envAllOk ",,".data "eth0".data "1900".data "x".data
    ⟨by decide, by decide⟩).2.2.1 [1900] (by decide) (by decide) rfl

/-- C4: a non-timeout read error is logged with the worker's
(group, interface, port) context and terminates that worker permanently
(the remaining events are never processed); a timeout instead makes the
worker re-check cancellation and retry the read; each worker's behaviour
depends only on its own event stream; and while any worker is still
running, `main` is still blocked in `wg.Wait()` (the process keeps
running). -/
theorem c4_read_error_confined (group ifaceName : Str) (port : Int)
    (numIfaces iIdx : Nat) (os : OSErr) :
    (∀ rest, runWorker group ifaceName port numIfaces iIdx (.readErr os :: rest)
      = ⟨[], some (group, ifaceName, port, os), .readError os⟩) ∧
    (∀ rest, runWorker group ifaceName port numIfaces iIdx (.readTimeout :: rest)
      = runWorker group ifaceName port numIfaces iIdx rest) ∧
    (∀ rest, runWorker group ifaceName port numIfaces iIdx
        (.readTimeout :: .ctxDone :: rest) = ⟨[], none, .ctxCancelled⟩) ∧
    (∀ (gf inf : Triple → Str) (pf : Triple → Int) (nI : Nat)
        (streams streams2 : Triple → List WEvent) (u : Triple),
      streams u = streams2 u →
        runSystem gf inf pf nI streams u = runSystem gf inf pf nI streams2 u) ∧
    (∀ nG nI nP s, Reachable nG nI nP s →
      (∃ t, ValidT nG nI nP t ∧ s.wstate t ≠ .exited) → s.mpc = .waiting) := by
  refine ⟨fun _ => rfl, fun _ => rfl, fun _ => rfl, ?_, ?_⟩
  · intro gf inf pf nI streams streams2 u h
    simp [runSystem, h]
  · intro nG nI nP s hreach ⟨t, hv, hne⟩
    by_contra hm
    exact hne (reachable_closed nG nI nP s hreach hm t hv)

/-- Witness for C4 at a concrete input: a read error with OS error 7 on
the worker for group `"g"`, interface `"e"` (index 0 of 2), port 1900. -/
theorem c4_read_error_confined_witness :
    runWorker "g".data "e".data 1900 2 0 [.readErr 7, .ctxDone]
      = ⟨[], some ("g".data, "e".data, 1900, 7), .readError 7⟩ :=
  (c4_read_error_confined "g".data "e".data 1900 2 0 7).1 [.ctxDone]

/-- C2: in every state reachable from the steady state, (1) once `main`
has moved past `wg.Wait()` (closing or done), every worker has exited,
so no socket is closed before all workers exit and no worker read/write
can occur afterwards; (2) any worker socket operation (issuing a read,
writing to a peer) can only happen while `main` is still waiting; (3)
the final "All done." log can only fire once every registry socket has
been closed; (4) the signal handler's step sets the shared cancellation
flag; and (5) once cancelled, every step of a worker strictly decreases
its termination measure, so every worker exits. -/
theorem c2_shutdown_order (nG nI nP : Nat) (s : Sys)
    (hreach : Reachable nG nI nP s) :
    (s.mpc ≠ .waiting → ∀ t, ValidT nG nI nP t → s.wstate t = .exited) ∧
    (∀ l s2, Step nG nI nP s l s2 → IsWorkerSockOp l → s.mpc = .waiting) ∧
    (∀ s2, Step nG nI nP s .mAllDone s2 → s.mpc = .closing 0) ∧
    (∀ s2, Step nG nI nP s .sigCancel s2 → s2.cancelled = true) ∧
    (s.cancelled = true → ∀ l s2 t, Step nG nI nP s l s2 → WorkerLabelOf l t →
      wRank nI (s2.wstate t) < wRank nI (s.wstate t)) := by
  refine ⟨reachable_closed nG nI nP s hreach, ?_, ?_, ?_, ?_⟩
  · intro l s2 hstep hop
    cases hstep with
    | sigCancel => simp [IsWorkerSockOp] at hop
    | wSelectDone t hv hw hc => simp [IsWorkerSockOp] at hop
    | wSelectDefault t hv hw hc =>
      by_contra hm
      exact absurd (reachable_closed nG nI nP s hreach hm t hv) (by simp [hw])
    | wReadTimeout t hv hw => simp [IsWorkerSockOp] at hop
    | wReadErr t hv hw => simp [IsWorkerSockOp] at hop
    | wReadOk t hv hw => simp [IsWorkerSockOp] at hop
    | wWrite t j rest hv hw =>
      by_contra hm
      exact absurd (reachable_closed nG nI nP s hreach hm t hv) (by simp [hw])
    | wLoopBack t hv hw => simp [IsWorkerSockOp] at hop
    | mWaitReturn hm hall => simp [IsWorkerSockOp] at hop
    | mCloseSock k hm => simp [IsWorkerSockOp] at hop
    | mAllDone hm => simp [IsWorkerSockOp] at hop
  · intro s2 hstep
    cases hstep with
    | mAllDone hm => exact hm
  · intro s2 hstep
    cases hstep with
    | sigCancel => rfl
  · intro hc l s2 t hstep hl
    cases hstep with
    | sigCancel => simp [WorkerLabelOf] at hl
    | wSelectDone u hv hw hcc =>
      have ht : u = t := by
        rcases hl with h | h | h | h | h | ⟨j2, h⟩ | h <;> cases h <;> rfl
      subst ht
      simp [updW, hw, wRank]
    | wSelectDefault u hv hw hcc => rw [hc] at hcc; cases hcc
    | wReadTimeout u hv hw =>
      have ht : u = t := by
        rcases hl with h | h | h | h | h | ⟨j2, h⟩ | h <;> cases h <;> rfl
      subst ht
      simp [updW, hw, wRank]
      omega
    | wReadErr u hv hw =>
      have ht : u = t := by
        rcases hl with h | h | h | h | h | ⟨j2, h⟩ | h <;> cases h <;> rfl
      subst ht
      simp [updW, hw, wRank]
    | wReadOk u hv hw =>
      have ht : u = t := by
        rcases hl with h | h | h | h | h | ⟨j2, h⟩ | h <;> cases h <;> rfl
      subst ht
      have hb : (peers nI u.2.1).length ≤ nI := by
        have := List.length_filter_le (fun j => j != u.2.1) (List.range nI)
        simpa [peers] using this
      simp [updW, hw, wRank]
      omega
    | wWrite u j rest hv hw =>
      have ht : u = t := by
        rcases hl with h | h | h | h | h | ⟨j2, h⟩ | h <;> cases h <;> rfl
      subst ht
      simp [updW, hw, wRank]
    | wLoopBack u hv hw =>
      have ht : u = t := by
        rcases hl with h | h | h | h | h | ⟨j2, h⟩ | h <;> cases h <;> rfl
      subst ht
      simp [updW, hw, wRank]
    | mWaitReturn hm hall => simp [WorkerLabelOf] at hl
    | mCloseSock k hm => simp [WorkerLabelOf] at hl
    | mAllDone hm => simp [WorkerLabelOf] at hl

/-- Witness for C2 on a concrete 1×1×1 execution: after signal, worker
exit and `wg.Wait()` return, in the closing state the single worker has
exited. -/
theorem c2_shutdown_order_witness : sClosing.wstate (0, 0, 0) = WState.exited := by
  have hall : ∀ t, ValidT 1 1 1 t →
      (updW (fun _ => WState.loopHead) (0, 0, 0) WState.exited) t = WState.exited := by
    intro t ht
    obtain ⟨a, b, c⟩ := t
    obtain ⟨h1, h2, h3⟩ := ht
    have ha : a = 0 := Nat.lt_one_iff.mp h1
    have hb : b = 0 := Nat.lt_one_iff.mp h2
    have hcn : c = 0 := Nat.lt_one_iff.mp h3
    subst ha; subst hb; subst hcn
    simp [updW]
  have hreach : Reachable 1 1 1 sClosing := by
    refine Relation.ReflTransGen.tail (Relation.ReflTransGen.tail
      (Relation.ReflTransGen.tail Relation.ReflTransGen.refl
        ⟨.sigCancel, Step.sigCancel sysInit⟩)
      ⟨.wSelectDone (0, 0, 0),
        Step.wSelectDone _ (0, 0, 0) (by exact ⟨Nat.zero_lt_one, Nat.zero_lt_one, Nat.zero_lt_one⟩) rfl rfl⟩)
      ⟨.mWaitReturn, Step.mWaitReturn _ rfl hall⟩
  exact (c2_shutdown_order 1 1 1 sClosing hreach).1 (by decide) (0, 0, 0)
    ⟨Nat.zero_lt_one, Nat.zero_lt_one, Nat.zero_lt_one⟩

end SSDPF
